import Mathlib

/-!
Shallow embedding of the nettie-apps CLI workspace/submodule provisioning
engine, translated from the TypeScript sources:

* `utilities/cli/src/utils/index.ts` — `findGitRoot`, `createGitHubRepository`
* `utilities/cli/src/commands/submoduleManager.ts` — `handleNettieRepoError`,
  `execFromGitRoot`, `updateSubmodules`, `removeSubmodule`
* the `createApp` orchestrator (create command)

Filesystem paths are modelled as `List String` (segments from the
filesystem root).  External collaborators (the git binary, the GitHub
API, the filesystem) are parameters of the embedded functions; thrown
JavaScript exceptions are modelled by `Except String`.
-/


/-! ## Definitions translated from the source -/


/-- `path.resolve base parts`: interpretation of Node's `path.resolve`
starting at absolute path `base` and applying the relative segments
`parts` (".." pops a segment, "." and "" are skipped). -/
def pathResolve (base : List String) : List String → List String
  | [] => base
  | s :: rest =>
    if s = ".." then pathResolve base.dropLast rest
    else if s = "." ∨ s = "" then pathResolve base rest
    else pathResolve (base ++ [s]) rest

/-- Whitespace recognizer used by the structural `trim` below. -/
def isSpaceChar (c : Char) : Bool :=
  c = ' ' ∨ c = '\t' ∨ c = '\n' ∨ c = '\r'

/-- Drop leading whitespace from a character list. -/
def dropLeadingSpaces : List Char → List Char
  | [] => []
  | c :: rest => if isSpaceChar c then dropLeadingSpaces rest else c :: rest

/-- Structural counterpart of `String.trim` on a character list. -/
def trimChars (cs : List Char) : List Char :=
  dropLeadingSpaces (dropLeadingSpaces cs.reverse).reverse

/-- Split a character list on `/`, structural counterpart of
JavaScript's `split('/')`. -/
def splitSlashAux : List Char → List Char → List (List Char)
  | [], acc => [acc.reverse]
  | c :: rest, acc =>
    if c = '/' then acc.reverse :: splitSlashAux rest []
    else splitSlashAux rest (c :: acc)

/-- `splitOnSlash s` is `s.split('/')`. -/
def splitOnSlash (s : String) : List String :=
  (splitSlashAux s.toList []).map (fun cs => String.mk cs)

/-- `strEndsWith s t` is JavaScript's `s.endsWith(t)`. -/
def strEndsWith (s t : String) : Bool :=
  let ls := s.toList
  let lt := t.toList
  ls.drop (ls.length - lt.length) == lt

/-- The abstract filesystem consumed by `findGitRoot`:
`readFile` is `fs.readFileSync` (`none` models a thrown error, e.g. the
path is a directory or absent); `dirExists` is `fs.existsSync`. -/
structure FS where
  readFile : List String → Option String
  dirExists : List String → Bool

/-- Translation of the regex match `/^gitdir:\s*(.+)$/` applied to the
trimmed content of a `.git` pointer file: returns the captured path when
the (single-line) content starts with `gitdir:`. -/
def parseGitdir (content : String) : Option String :=
  match trimChars content.toList with
  | 'g' :: 'i' :: 't' :: 'd' :: 'i' :: 'r' :: ':' :: rest =>
    match dropLeadingSpaces rest with
    | [] => none
    | r => some (String.mk r)
  | _ => none

/-- The body of the `try` block of `findGitRoot`
(`utilities/cli/src/utils/index.ts:41-82`).  `revParseTopLevel` is the
result of `git rev-parse --show-toplevel` (`none` models the command
throwing, i.e. not inside any git repository).  Inside a submodule the
`.git` pointer file is resolved and the candidate parent root is taken
exactly three levels above the resolved git directory
(`path.resolve(absoluteGitDir, '..', '..', '..')`).  A candidate is
accepted only if the marker subdirectory `utilities/cli` exists under
it; otherwise the code falls through to checking the immediate git root,
and finally throws `not in the nettie-apps repository`. -/
def findGitRootInner (fs : FS) (revParseTopLevel : Option (List String)) :
    Except String (List String) :=
  match revParseTopLevel with
  | none => Except.error "git rev-parse failed"
  | some currentGitRoot =>
    let fromSubmodule : Option (List String) :=
      match fs.readFile (currentGitRoot ++ [".git"]) with
      | none => none
      | some content =>
        match parseGitdir content with
        | none => none
        | some rel =>
          let absoluteGitDir := pathResolve currentGitRoot (splitOnSlash rel)
          let parentRoot := pathResolve absoluteGitDir ["..", "..", ".."]
          if fs.dirExists (parentRoot ++ ["utilities", "cli"]) then some parentRoot
          else none
    match fromSubmodule with
    | some root => Except.ok root
    | none =>
      if fs.dirExists (currentGitRoot ++ ["utilities", "cli"]) then
        Except.ok currentGitRoot
      else Except.error "not in the nettie-apps repository"

/-- `findGitRoot` as exported: the whole body above sits inside a
`try { ... } catch (error) { throw new Error('not in a git repository') }`,
so every error raised inside — including the deliberate
`not in the nettie-apps repository` throw — is replaced by
`not in a git repository`. -/
def findGitRoot (fs : FS) (revParseTopLevel : Option (List String)) :
    Except String (List String) :=
  match findGitRootInner fs revParseTopLevel with
  | Except.ok r => Except.ok r
  | Except.error _ => Except.error "not in a git repository"

/-- How `handleNettieRepoError` (`submoduleManager.ts:12-29`) dispatches
on the message of the error it receives. -/
inductive RepoErrorHandling where
  | exitNettieRepoMsg
  | exitGitRepoMsg
  | rethrow
deriving DecidableEq

/-- Translation of `handleNettieRepoError`: it distinguishes the two
error messages produced by `findGitRoot` and prints a different banner
for each; any other error is rethrown. -/
def handleNettieRepoError (msg : String) : RepoErrorHandling :=
  if msg = "not in the nettie-apps repository" then RepoErrorHandling.exitNettieRepoMsg
  else if msg = "not in a git repository" then RepoErrorHandling.exitGitRepoMsg
  else RepoErrorHandling.rethrow

/-- A concrete workspace used to evaluate `findGitRoot`: the workspace
root, carrying the `utilities/cli` marker. -/
def wsRoot : List String := ["home", "dev", "nettie-apps"]

/-- A registered submodule of that workspace at relative path
`apps/myapp`, exactly as `createApp` registers them. -/
def subRoot : List String := wsRoot ++ ["apps", "myapp"]

/-- The filesystem of that workspace: the submodule's `.git` pointer
file holds the relative git directory git writes for a submodule at
`apps/myapp`; the marker `utilities/cli` exists only under the
workspace root; reading the root's `.git` (a directory) throws. -/
def wsFS : FS where
  readFile := fun p =>
    if p = subRoot ++ [".git"] then some "gitdir: ../../.git/modules/apps/myapp"
    else none
  dirExists := fun p => p = wsRoot ++ ["utilities", "cli"]

/-- Outcome of one GitHub repository-creation API call, as distinguished
by the error handling of `createGitHubRepository`
(`utilities/cli/src/utils/index.ts:107-176`): success, a 422 response
whose `errors` array mentions `already exists`, or any other failure
(carrying the thrown error's message). -/
inductive ApiOutcome where
  | success
  | alreadyExists422
  | otherError (msg : String)
deriving DecidableEq

/-- The GitHub collaborator as consumed by `createGitHubRepository`:
the outcome of the organization attempt (`orgs.get` + `repos.createInOrg`,
one `try` block), the outcome of the personal-account attempt
(`repos.createForAuthenticatedUser`), and the authenticated user's login
(`data.owner.login`). -/
structure GithubEnv where
  orgOutcome : ApiOutcome
  userOutcome : ApiOutcome
  username : String

/-- The creation attempts `createGitHubRepository` can issue, in the
order issued. -/
inductive Attempt where
  | inOrg (o : String)
  | forUser
deriving DecidableEq

/-- Body of `createGitHubRepository` before its outermost `catch`:
if an organization is given, try it first; a 422 `already exists`
failure there throws immediately (no fallback); any other organization
failure falls through to a single personal-account attempt, whose own
422 `already exists` throws, and whose other failures are rethrown.
The returned full name is built from the owner actually used:
`org/name` on the organization path, `data.owner.login/name` on the
personal path.  The second component records the API attempts issued. -/
def createRepoAttempts (env : GithubEnv) (name : String) (org : Option String) :
    Except String String × List Attempt :=
  let userAttempt : Except String String :=
    match env.userOutcome with
    | ApiOutcome.success => Except.ok (env.username ++ "/" ++ name)
    | ApiOutcome.alreadyExists422 =>
        Except.error ("Repository name \x27" ++ name ++
          "\x27 already exists in your account. Please choose a different name.")
    | ApiOutcome.otherError m => Except.error m
  match org with
  | none => (userAttempt, [Attempt.forUser])
  | some o =>
    match env.orgOutcome with
    | ApiOutcome.success => (Except.ok (o ++ "/" ++ name), [Attempt.inOrg o])
    | ApiOutcome.alreadyExists422 =>
        (Except.error ("Repository name \x27" ++ name ++ "\x27 already exists in organization " ++
          o ++ ". Please choose a different name."), [Attempt.inOrg o])
    | ApiOutcome.otherError _ => (userAttempt, [Attempt.inOrg o, Attempt.forUser])

/-- `createGitHubRepository`: the outermost `catch` wraps every error
message in `Failed to create GitHub repository: ...`. -/
def createGitHubRepository (env : GithubEnv) (name : String) (org : Option String) :
    Except String String × List Attempt :=
  match createRepoAttempts env name org with
  | (Except.ok f, as) => (Except.ok f, as)
  | (Except.error m, as) => (Except.error ("Failed to create GitHub repository: " ++ m), as)

/-- The caller-provided configuration (`ProjectConfig` in
`types/index.ts`): `githubRepo` is the desired `owner/name`. -/
structure ProjectConfig where
  name : String
  description : String
  githubRepo : String
  createGithubRepo : Bool
  githubToken : Option String

/-- External collaborators and ambient state consumed by `createApp`:
the GitHub API, whether the target directory already exists when
`fs.access(appPath)` runs, whether a stale `origin` remote is already
configured after `git init`, which branch names `git push origin <b>`
accepts, whether the workspace root passes `rev-parse --git-dir`, and
whether the structured / raw `submodule add` calls succeed. -/
structure CreateAppEnv where
  github : GithubEnv
  dirExistsAtStart : Bool
  originExists : Bool
  pushOk : String → Bool
  workspaceIsGitRepo : Bool
  submoduleAddOk : Bool
  rawSubmoduleAddOk : Bool

/-- Observable side effects of `createApp`, in program order.  Effects
that embed a repository URL carry it as their first field. -/
inductive CAEffect where
  | checkedDirAvailable
  | createRemote (requestedName : String) (org : Option String)
  | mkdirApp
  | gitInit
  | gitAddAll
  | gitCommit (msg : String)
  | removeRemote (remoteName : String)
  | addRemote (url : String) (remoteName : String)
  | pushAttempt (branch : String) (ok : Bool)
  | pushedOk (branch : String)
  | warnPushFailed
  | waitForGithub
  | removeDirBeforeSubmodule
  | submoduleAdd (url : String) (relPath : String) (ok : Bool)
  | rawSubmoduleAdd (url : String) (relPath : String) (ok : Bool)
  | manualSubmoduleCmd (url : String) (relPath : String)
deriving DecidableEq

/-- The local repository state `createApp` leaves behind in the new
project directory. -/
structure LocalRepo where
  hasCommit : Bool
  origin : Option String
deriving DecidableEq

/-- Result of a `createApp` run: the effect trace, the final value of
the `actualGithubRepo` variable, the local repository state, and the
fatal error surfaced by the outermost `catch`, if any. -/
structure CreateAppResult where
  trace : List CAEffect
  actualGithubRepo : String
  localRepo : LocalRepo
  fatalError : Option String

/-- `https://github.com/<repo>.git`, the URL shape used for the
`origin` remote, the submodule registration and the printed manual
remediation command. -/
def mkGithubUrl (repo : String) : String :=
  "https://github.com/" ++ repo ++ ".git"

/-- Lines 29-35 of `createApp`: `fs.access(appPath)` followed by an
explicit `throw` when access succeeds.  Both outcomes are errors —
either the deliberate `Directory already exists` throw or the `ENOENT`
rejection of `fs.access` — and both are caught by the `catch` of the
same `try`, which logs `Target directory is available` and continues.
The deliberate throw therefore never escapes. -/
def dirCheckInner (appPath : String) (dirExists : Bool) : Except String Unit :=
  if dirExists then Except.error ("Directory already exists: " ++ appPath)
  else Except.error "ENOENT"

/-- `githubRepo.split('/')[0]`: the requested owner. -/
def requestedOwner (cfg : ProjectConfig) : String :=
  (splitOnSlash cfg.githubRepo).headD ""

/-- `githubRepo.split('/')[1]`: the requested repository name. -/
def requestedRepoName (cfg : ProjectConfig) : String :=
  ((splitOnSlash cfg.githubRepo).drop 1).headD ""

/-- `useOrg` in `createApp`: the requested owner when it differs from
the authenticated username, else no organization. -/
def useOrg (cfg : ProjectConfig) (env : CreateAppEnv) : Option String :=
  if requestedOwner cfg ≠ env.github.username then some (requestedOwner cfg) else none

/-- The candidate branch names of the initial push, in attempt order
(`const branchNames = ['main', 'master']`). -/
def branchNames : List String := ["main", "master"]

/-- The push loop of `createApp` (lines 98-109): attempt each branch in
order, stop at the first success; each failed attempt's error is
swallowed and the next candidate is tried.  Returns the attempt trace
and the successful branch, if any. -/
def tryPushBranches (pushOk : String → Bool) : List String → List CAEffect × Option String
  | [] => ([], none)
  | b :: rest =>
    if pushOk b then ([CAEffect.pushAttempt b true], some b)
    else
      let r := tryPushBranches pushOk rest
      (CAEffect.pushAttempt b false :: r.1, r.2)

/-- Lines 81-118 of `createApp`: remove a stale `origin` remote if one
exists, add `origin` pointing at `url`, run the push loop, then either
report the pushed branch or warn that all candidates failed (the
failure is non-fatal — execution continues). -/
def pushPhase (url : String) (originExists : Bool) (pushOk : String → Bool) :
    List CAEffect × Option String :=
  let pre := (if originExists then [CAEffect.removeRemote "origin"] else []) ++
    [CAEffect.addRemote url "origin"]
  let loop := tryPushBranches pushOk branchNames
  (pre ++ loop.1 ++
    (match loop.2 with
     | some b => [CAEffect.pushedOk b]
     | none => [CAEffect.warnPushFailed]), loop.2)

/-- Lines 120-175 of `createApp`: after verifying the workspace is a
git repository, wait for GitHub to process the push, remove the
just-created directory (the computed `submodulePath` is the same
`path.join(workspaceRoot, 'apps', name)` as `appPath`, so the
equality branch always fires), then the two-tier submodule
registration: structured `submoduleAdd`, on failure the raw form, and
on a second failure the printed manual remediation command. -/
def submodulePhase (url relPath : String) (isGitRepo addOk rawOk : Bool) :
    List CAEffect :=
  if isGitRepo then
    [CAEffect.waitForGithub, CAEffect.removeDirBeforeSubmodule] ++
    (if addOk then [CAEffect.submoduleAdd url relPath true]
     else [CAEffect.submoduleAdd url relPath false] ++
       (if rawOk then [CAEffect.rawSubmoduleAdd url relPath true]
        else [CAEffect.rawSubmoduleAdd url relPath false,
              CAEffect.manualSubmoduleCmd url relPath]))
  else []

/-- The tail of `createApp` once `actualGithubRepo` has its final value
`actual`: create the directory, generate files, `git init`/`add`/
`commit`, and — when a GitHub repository was requested — the push phase
and the submodule phase, every URL being built from `actual`. -/
def afterRepoCreation (cfg : ProjectConfig) (env : CreateAppEnv)
    (pre : List CAEffect) (actual : String) : CreateAppResult :=
  let mkEs := [CAEffect.mkdirApp, CAEffect.gitInit, CAEffect.gitAddAll,
    CAEffect.gitCommit "Initial commit"]
  if cfg.createGithubRepo then
    let url := mkGithubUrl actual
    let pp := pushPhase url env.originExists env.pushOk
    let subEs := submodulePhase url ("apps/" ++ cfg.name) env.workspaceIsGitRepo
      env.submoduleAddOk env.rawSubmoduleAddOk
    { trace := pre ++ mkEs ++ pp.1 ++ subEs
      actualGithubRepo := actual
      localRepo := { hasCommit := true, origin := some url }
      fatalError := none }
  else
    { trace := pre ++ mkEs
      actualGithubRepo := actual
      localRepo := { hasCommit := true, origin := none }
      fatalError := none }

/-- `createApp` (create command, lines 13-197).  `actualGithubRepo` is
initialised to the requested `githubRepo` and reassigned to the value
returned by `createGitHubRepository` when remote creation runs; a
provisioning failure propagates to the outermost `catch`, which wraps
it as `Failed to create app: ...`.  The swallowed directory-existence
check (`dirCheckInner`) always lands in its own `catch`, so the flow
continues identically in both branches. -/
def createApp (cfg : ProjectConfig) (env : CreateAppEnv) (workspaceRoot : String) :
    CreateAppResult :=
  let appPath := workspaceRoot ++ "/apps/" ++ cfg.name
  let pre :=
    match dirCheckInner appPath env.dirExistsAtStart with
    | Except.ok _ => [CAEffect.checkedDirAvailable]
    | Except.error _ => [CAEffect.checkedDirAvailable]
  if cfg.createGithubRepo && cfg.githubToken.isSome then
    let res := createGitHubRepository env.github (requestedRepoName cfg) (useOrg cfg env)
    let pre2 := pre ++ [CAEffect.createRemote (requestedRepoName cfg) (useOrg cfg env)]
    match res.1 with
    | Except.error m =>
      { trace := pre2
        actualGithubRepo := cfg.githubRepo
        localRepo := { hasCommit := false, origin := none }
        fatalError := some ("Failed to create app: " ++ m) }
    | Except.ok f => afterRepoCreation cfg env pre2 f
  else
    afterRepoCreation cfg env pre cfg.githubRepo

/-- State of one submodule worktree and repository as observed and
mutated by `updateSubmodules`: the checked-out commit `head`; whether
`HEAD` is attached to the (single relevant) local branch or detached;
that branch's name; whether the branch has an upstream tracking branch
and the tracking branch's post-fetch tip; and whether
`status --porcelain` reports uncommitted changes.  While `HEAD` is
attached, the branch tip moves with `head`. -/
structure SubRepo where
  head : Nat
  onBranch : Bool
  branchName : String
  hasUpstream : Bool
  upstreamTip : Nat
  dirty : Bool
deriving DecidableEq

/-- The surrounding repository facts a per-submodule update run
consumes: the commit the superproject currently records for the
submodule (its gitlink — `updateSubmodules` never stages or commits
the superproject, so this value is fixed across runs); the
ancestor-or-equal relation of the submodule's commit graph
(`anc a b` ⟺ commit `a` is reachable from `b`), which decides both
`log @{u}..@` emptiness and `merge --ff-only` success; and
whether a dirty-worktree checkout at the gitlink would conflict and
make the `git submodule update` command fail. -/
structure UpdateEnv where
  gitlink : Nat
  anc : Nat → Nat → Bool
  checkoutFails : Bool

/-- `git submodule update --init "<path>"` (`submoduleManager.ts:146`)
on an initialized submodule, default checkout mode: when the checked
out commit already equals the recorded gitlink, nothing happens; when
it differs, git checks out the recorded gitlink commit on a detached
`HEAD` (uncommitted changes are carried over when they do not
conflict; a conflicting dirty checkout makes the command throw, which
line 174 catches as a fetch warning, leaving the worktree unchanged).
This runs before the `hasChanges`/`hasUnpushedChanges` probes of
lines 180-184 and can therefore move the commit and detach the branch
of a submodule whose gitlink is stale. -/
def submoduleUpdateInit (env : UpdateEnv) (s : SubRepo) : SubRepo :=
  if s.head = env.gitlink then s
  else if s.dirty && env.checkoutFails then s
  else { s with head := env.gitlink, onBranch := false }

/-- Line 181: `git -C <path> status --porcelain` is nonempty. -/
def hasChangesOf (s : SubRepo) : Bool := s.dirty

/-- Line 182: `git -C <path> log @{u}..@ --oneline 2>/dev/null || true`
is nonempty: on a detached `HEAD` or a branch without upstream the
command fails and the `|| true` yields emptiness; otherwise it lists
the commits of `HEAD` not reachable from the tracking tip. -/
def hasUnpushedOf (env : UpdateEnv) (s : SubRepo) : Bool :=
  if s.onBranch && s.hasUpstream then !(env.anc s.head s.upstreamTip) else false

/-- Per-submodule result tag, mirroring the console reports of
`updateSubmodules` (lines 190-232) plus the separate
`No tracking branch set` warning. -/
inductive UpdateOutcome where
  | updated
  | unchanged
  | skippedConflict
  | noTrackingBranch
  | failed
deriving DecidableEq

/-- Which per-submodule outcomes set the `hasConflicts` flag in
`updateSubmodules` (the conflict skip at line 202 and the update
failure at line 230; the missing-tracking-branch case does not). -/
def setsConflictFlag : UpdateOutcome → Bool
  | UpdateOutcome.skippedConflict => true
  | UpdateOutcome.failed => true
  | _ => false

/-- `git merge --ff-only @{u}` (line 216): succeeds exactly when
`HEAD` is an ancestor of or equal to the tracking tip, advancing
`HEAD` (and the attached branch) to that tip; otherwise it fails
changing nothing. -/
def mergeFFOnly (env : UpdateEnv) (s : SubRepo) : Option SubRepo :=
  if env.anc s.head s.upstreamTip then some { s with head := s.upstreamTip }
  else none

/-- Result of processing one submodule: the worktree state afterwards,
the reported outcome, and whether a merge was attempted at all. -/
structure ProcResult where
  state : SubRepo
  outcome : UpdateOutcome
  mergeAttempted : Bool
deriving DecidableEq

/-- One submodule's pass through `updateSubmodules`
(`submoduleManager.ts:131-232`), in program order: the initial commit
is recorded first (line 133, before any mutation); then
`git submodule update --init` runs (line 146, possibly re-checking out
a stale gitlink on a detached `HEAD`); the fetch and tracking-branch
creation of lines 149-171 touch no worktree; the conflict probes of
lines 180-184 then inspect the *post-init* state; a submodule with
changes or unpushed commits is skipped; one without a current tracking
branch (in particular one just detached by the init step) is reported
`No tracking branch set`; otherwise `merge --ff-only @{u}` runs and
the outcome is `updated` exactly when the resulting commit differs
from the recorded initial commit.  The `failed` branch mirrors the
`catch` at line 228; since `hasUnpushedOf` is the exact complement of
fast-forwardability for the submodules that reach the merge, the model
(free of spurious command errors) never produces it. -/
def updateOneSubmodule (env : UpdateEnv) (s : SubRepo) : ProcResult :=
  let initialCommit := s.head
  let s1 := submoduleUpdateInit env s
  if hasChangesOf s1 || hasUnpushedOf env s1 then
    { state := s1, outcome := UpdateOutcome.skippedConflict, mergeAttempted := false }
  else if s1.onBranch && s1.hasUpstream then
    match mergeFFOnly env s1 with
    | some s2 =>
      { state := s2
        outcome := if s2.head = initialCommit then UpdateOutcome.unchanged
          else UpdateOutcome.updated
        mergeAttempted := true }
    | none => { state := s1, outcome := UpdateOutcome.failed, mergeAttempted := true }
  else
    { state := s1, outcome := UpdateOutcome.noTrackingBranch, mergeAttempted := false }

/-- `execFromGitRoot` (`submoduleManager.ts:34-45`): `process.chdir`
into the git root, run the command there (its result may be a thrown
error), and restore the saved directory in the `finally` block — on the
success path and on the throw path alike.  Returns the command result
together with the process working directory after the call. -/
def execFromGitRoot (gitRoot : List String)
    (runCmd : List String → Except String String) (currentDir : List String) :
    Except String String × List String :=
  let cwdDuring := gitRoot
  let result := runCmd cwdDuring
  (result, currentDir)

/-- Iterated `execFromGitRoot` calls, threading the process working
directory: models the body of `updateSubmodules`, in which every git
command after the initial `chdir` goes through `execFromGitRoot`. -/
def repeatExecCwd (gitRoot : List String) : Nat → List String → List String
  | 0, cwd => cwd
  | n + 1, cwd =>
    repeatExecCwd gitRoot n (execFromGitRoot gitRoot (fun _ => Except.ok "") cwd).2

/-- The working-directory trajectory of `updateSubmodules`
(`submoduleManager.ts:112-116` and onwards): one `execFromGitRoot`
call to read the toplevel (which restores the caller's directory),
then a bare `process.chdir(gitRoot)` with no matching restore anywhere
in the function, then `laterCommands` further `execFromGitRoot` calls.
Returns the process working directory when the function returns. -/
def updateSubmodulesFinalCwd (gitRoot initialCwd : List String)
    (laterCommands : Nat) : List String :=
  let cwd1 := (execFromGitRoot gitRoot (fun _ => Except.ok "toplevel") initialCwd).2
  let cwd2 := gitRoot
  let _ := cwd1
  repeatExecCwd gitRoot laterCommands cwd2

/-- The removal steps `removeSubmodule` runs after confirmation
(`submoduleManager.ts:306-309`), in order. -/
inductive RemoveStep where
  | deinit (p : String)
  | rmFromIndex (p : String)
  | purgeModules (p : String)
  | commitRemoval (p : String)
deriving DecidableEq

/-- Resolution of the user-given argument against the registered
submodule list (`submoduleManager.ts:279-286`): exact match first,
else the first registered path ending in `/<arg>`. -/
def resolveSubmodulePath (submodules : List String) (arg : String) : Option String :=
  if submodules.contains arg then some arg
  else submodules.find? (fun p => strEndsWith p ("/" ++ arg))

/-- Result of a `removeSubmodule` run: the thrown error (if any), the
removal steps performed, and the registered-submodule list afterwards
(`git rm` drops the removed path from `git submodule status`). -/
structure RemoveResult where
  error : Option String
  steps : List RemoveStep
  submodulesAfter : List String
deriving DecidableEq

/-- `removeSubmodule` (`submoduleManager.ts:254-335`) for an explicit
argument: resolve the argument first — an unresolvable argument throws
`Submodule '<arg>' does not exist` before any removal step — then ask
for confirmation, and only then run deinit, `git rm`, the purge of
`.git/modules/<path>`, and the removal commit. -/
def removeSubmodule (submodules : List String) (arg : String) (confirm : Bool) :
    RemoveResult :=
  match resolveSubmodulePath submodules arg with
  | none =>
    { error := some ("Submodule \x27" ++ arg ++ "\x27 does not exist")
      steps := []
      submodulesAfter := submodules }
  | some p =>
    if confirm then
      { error := none
        steps := [RemoveStep.deinit p, RemoveStep.rmFromIndex p,
          RemoveStep.purgeModules p, RemoveStep.commitRemoval p]
        submodulesAfter := submodules.erase p }
    else
      { error := none, steps := [], submodulesAfter := submodules }

/-- A git repository that is not the managed workspace: no marker
subdirectory anywhere, no `.git` pointer file. -/
def plainRepoFS : FS where
  readFile := fun _ => none
  dirExists := fun _ => false

/-- Toplevel of that unmanaged repository. -/
def plainRepoRoot : List String := ["home", "dev", "somerepo"]

/-- Commit graph and superproject facts for the C4 counterexample:
the gitlink records commit 3, an ancestor of both the upstream tip 5
and the local head 9. -/
def updEnvAhead : UpdateEnv :=
  { gitlink := 3, anc := fun a b => a == b || (a == 3 && (b == 5 || b == 9)),
    checkoutFails := false }

/-- A clean submodule with local commits not present upstream (head 9,
upstream tip 5, 9 not an ancestor of 5) whose recorded gitlink (3) is
stale — exactly a submodule C4 quantifies over. -/
def subAheadStale : SubRepo :=
  { head := 9, onBranch := true, branchName := "main", hasUpstream := true,
    upstreamTip := 5, dirty := false }

/-- Commit graph and superproject facts for the amended C4 witness and
for C5: the gitlink records commit 3 with upstream tip 7 ahead of it. -/
def updEnvBehind : UpdateEnv :=
  { gitlink := 3, anc := fun a b => a == b || (a == 3 && b == 7),
    checkoutFails := false }

/-- A clean submodule at the recorded gitlink, strictly behind its
tracking branch. -/
def subBehind : SubRepo :=
  { head := 3, onBranch := true, branchName := "main", hasUpstream := true,
    upstreamTip := 7, dirty := false }

/-- A dirty submodule whose checked-out commit matches the recorded
gitlink. -/
def subDirtyAtGitlink : SubRepo :=
  { head := 3, onBranch := true, branchName := "main", hasUpstream := true,
    upstreamTip := 7, dirty := true }

/-- A clean submodule at the recorded gitlink whose head (3) is not an
ancestor of its upstream tip (8 is unrelated under `updEnvBehind.anc`):
a merge could not fast-forward here. -/
def subDivergedAtGitlink : SubRepo :=
  { head := 3, onBranch := true, branchName := "main", hasUpstream := true,
    upstreamTip := 8, dirty := false }

/-- A GitHub collaborator where the organization attempt fails with a
permission error and the personal-account attempt succeeds. -/
def fallbackEnv : GithubEnv :=
  { orgOutcome := ApiOutcome.otherError "Resource not accessible by integration",
    userOutcome := ApiOutcome.success, username := "alice" }

/-- The registered submodules of the witness workspace. -/
def subsListEx : List String := ["apps/alpha", "utilities/frontend/beta"]

/-- The repository URL carried by an effect, when it carries one. -/
def urlOfEffect : CAEffect → Option String
  | CAEffect.addRemote url _ => some url
  | CAEffect.submoduleAdd url _ _ => some url
  | CAEffect.rawSubmoduleAdd url _ _ => some url
  | CAEffect.manualSubmoduleCmd url _ => some url
  | _ => none

/-- All repository URLs occurring in an effect trace, in order. -/
def urlsOf (tr : List CAEffect) : List String := tr.filterMap urlOfEffect

/-- The witness configuration: request `acme/app` while authenticated
as `alice`. -/
def cfgFallback : ProjectConfig :=
  { name := "myapp", description := "demo", githubRepo := "acme/app",
    createGithubRepo := true, githubToken := some "token" }

/-- The witness environment: organization creation fails with a
permission error (so the personal fallback fires), a stale origin
remote exists, only the `master` push succeeds, and both submodule
registration tiers fail (so the manual remediation command is printed
too). -/
def envFallback : CreateAppEnv :=
  { github := fallbackEnv, dirExistsAtStart := false, originExists := true,
    pushOk := fun b => b == "master", workspaceIsGitRepo := true,
    submoduleAddOk := false, rawSubmoduleAddOk := false }

/-- The witness environment where every push fails. -/
def envAllPushFail : CreateAppEnv :=
  { github := fallbackEnv, dirExistsAtStart := false, originExists := false,
    pushOk := fun _ => false, workspaceIsGitRepo := true,
    submoduleAddOk := true, rawSubmoduleAddOk := true }

/-- The witness environment for the directory-collision run: the target
directory already exists when `createApp` starts. -/
def envDirExists : CreateAppEnv :=
  { github := fallbackEnv, dirExistsAtStart := true, originExists := false,
    pushOk := fun _ => true, workspaceIsGitRepo := true,
    submoduleAddOk := true, rawSubmoduleAddOk := true }

/-! ## Theorems -/

/-- C3.  The claim says `findGitRoot` returns the same workspace root
whether invoked from the workspace root or from inside any registered
submodule.  The code takes the candidate parent root exactly three path
levels above the resolved submodule git directory, which is wrong for
the `apps/<name>` paths this tool registers (their git directory is
`.git/modules/apps/<name>`, four levels deep): invoked from inside the
registered submodule `apps/myapp`, the candidate becomes
`<root>/.git`, the marker check fails, and the call throws — while
from the workspace root it returns the root.  This contradicts the
claim at a concrete workspace. -/
theorem findGitRoot_fails_inside_registered_submodule :
    findGitRoot wsFS (some wsRoot) = Except.ok wsRoot ∧
    findGitRoot wsFS (some subRoot) = Except.error "not in a git repository" ∧
    findGitRoot wsFS (some subRoot) ≠ findGitRoot wsFS (some wsRoot) := by
  refine ⟨rfl, rfl, fun h => ?_⟩
  have h2 : (Except.error "not in a git repository" : Except String (List String)) =
      Except.ok wsRoot := h
  exact Except.noConfusion h2

/-- C7.  When the process is inside a git repository whose computed
candidates all lack the `utilities/cli` marker, the body of
`findGitRoot` does construct the distinct
`not in the nettie-apps repository` error, but its own outer `catch`
replaces every error with `not in a git repository`; the caller
`handleNettieRepoError`, which dispatches on the message, can therefore
only ever take its generic-git-repository branch for this situation —
the distinct branch the claim requires is unreachable. -/
theorem notAWorkspaceError_swallowed_by_outer_catch :
    findGitRootInner plainRepoFS (some plainRepoRoot) =
      Except.error "not in the nettie-apps repository" ∧
    findGitRoot plainRepoFS (some plainRepoRoot) =
      Except.error "not in a git repository" ∧
    handleNettieRepoError "not in a git repository" = RepoErrorHandling.exitGitRepoMsg ∧
    RepoErrorHandling.exitGitRepoMsg ≠ RepoErrorHandling.exitNettieRepoMsg :=
  ⟨rfl, rfl, rfl, by decide⟩

/-- C4 counterexample.  The claim states that every submodule with
uncommitted changes or local commits not on its upstream is left with
checked-out commit and branch unchanged and reported `skippedConflict`.
At this concrete input — a clean submodule with unpushed commits
(head 9, upstream tip 5, 9 not an ancestor of 5) whose recorded
gitlink (3) is stale — the `git submodule update --init` step
(line 146) re-checks out the stale gitlink on a detached `HEAD`
*before* the conflict probes of lines 180-184 run, so the probes see a
clean detached worktree: the run moves the checked-out commit from 9
to 3, detaches the branch, and reports `No tracking branch set`, not
`skippedConflict`. -/
theorem update_moves_unpushed_submodule_without_conflict_report :
    subAheadStale.dirty = false ∧ subAheadStale.onBranch = true ∧
    subAheadStale.hasUpstream = true ∧
    updEnvAhead.anc subAheadStale.head subAheadStale.upstreamTip = false ∧
    (updateOneSubmodule updEnvAhead subAheadStale).outcome =
      UpdateOutcome.noTrackingBranch ∧
    (updateOneSubmodule updEnvAhead subAheadStale).outcome ≠
      UpdateOutcome.skippedConflict ∧
    (updateOneSubmodule updEnvAhead subAheadStale).state.head = 3 ∧
    subAheadStale.head = 9 ∧
    (updateOneSubmodule updEnvAhead subAheadStale).state.onBranch = false ∧
    subAheadStale.onBranch = true := by
  decide

/-- C4 amended.  For every submodule whose checked-out commit matches
the gitlink the superproject records — so the line-146 re-checkout is
a no-op — and whose post-fetch probes report uncommitted changes or
unpushed commits, the update performs no merge, leaves the worktree
exactly as it was (commit, branch attachment and branch name), and
reports it as a conflict (`skippedConflict`, setting the conflict
flag) rather than force-overwriting local work. -/
theorem update_skips_conflicted_submodule_untouched_when_gitlink_current
    (env : UpdateEnv) (s : SubRepo) (hg : s.head = env.gitlink)
    (h : s.dirty = true ∨
      (s.onBranch = true ∧ s.hasUpstream = true ∧
        env.anc s.head s.upstreamTip = false)) :
    updateOneSubmodule env s =
      { state := s, outcome := UpdateOutcome.skippedConflict, mergeAttempted := false } ∧
    (updateOneSubmodule env s).state.head = s.head ∧
    (updateOneSubmodule env s).state.onBranch = s.onBranch ∧
    (updateOneSubmodule env s).state.branchName = s.branchName ∧
    setsConflictFlag (updateOneSubmodule env s).outcome = true := by
  have hinit : submoduleUpdateInit env s = s := by
    simp [submoduleUpdateInit, hg]
  have hcond : (hasChangesOf s || hasUnpushedOf env s) = true := by
    rcases h with h | ⟨h1, h2, h3⟩
    · simp [hasChangesOf, h]
    · simp [hasChangesOf, hasUnpushedOf, h1, h2, h3]
  refine ⟨?_, ?_, ?_, ?_, ?_⟩ <;>
    simp [updateOneSubmodule, hinit, hcond, setsConflictFlag]

/-- Witness for the amended C4, covering both conflict kinds at the
recorded gitlink: a dirty submodule and one with commits not on its
upstream are each skipped untouched. -/
theorem update_skips_conflicted_submodule_untouched_when_gitlink_current_witness :
    updateOneSubmodule updEnvBehind subDirtyAtGitlink =
      { state := subDirtyAtGitlink, outcome := UpdateOutcome.skippedConflict,
        mergeAttempted := false } ∧
    setsConflictFlag (updateOneSubmodule updEnvBehind subDirtyAtGitlink).outcome = true ∧
    updateOneSubmodule updEnvBehind subDivergedAtGitlink =
      { state := subDivergedAtGitlink, outcome := UpdateOutcome.skippedConflict,
        mergeAttempted := false } :=
  ⟨(update_skips_conflicted_submodule_untouched_when_gitlink_current
      updEnvBehind subDirtyAtGitlink rfl (Or.inl rfl)).1,
   (update_skips_conflicted_submodule_untouched_when_gitlink_current
      updEnvBehind subDirtyAtGitlink rfl (Or.inl rfl)).2.2.2.2,
   (update_skips_conflicted_submodule_untouched_when_gitlink_current
      updEnvBehind subDivergedAtGitlink rfl (Or.inr ⟨rfl, rfl, rfl⟩)).1⟩

/-- C5 counterexample.  The claim states that immediately re-running
update on a just-updated submodule reports `unchanged`.  At this
concrete input the first run fast-forwards the submodule from the
recorded gitlink 3 to the tracking tip 7 and reports `updated`; but
`updateSubmodules` never stages or commits the superproject gitlink
(the only `git commit` in the file belongs to `removeSubmodule`), so
the second run's `git submodule update --init` re-checks out the now
stale gitlink 3 on a detached `HEAD`, and the run reports
`No tracking branch set` — reverting the advance, not `unchanged`. -/
theorem update_rerun_reverts_to_stale_gitlink :
    (updateOneSubmodule updEnvBehind subBehind).outcome = UpdateOutcome.updated ∧
    (updateOneSubmodule updEnvBehind subBehind).state.head = 7 ∧
    (updateOneSubmodule updEnvBehind
      (updateOneSubmodule updEnvBehind subBehind).state).outcome =
      UpdateOutcome.noTrackingBranch ∧
    (updateOneSubmodule updEnvBehind
      (updateOneSubmodule updEnvBehind subBehind).state).outcome ≠
      UpdateOutcome.unchanged ∧
    (updateOneSubmodule updEnvBehind
      (updateOneSubmodule updEnvBehind subBehind).state).state.head = subBehind.head ∧
    (updateOneSubmodule updEnvBehind
      (updateOneSubmodule updEnvBehind subBehind).state).state.onBranch = false := by
  decide

/-- C5 amended.  A clean submodule at its recorded gitlink and
strictly behind its tracking branch is fast-forwarded to the tracking
tip and reported `updated`; but because the run never commits the
superproject gitlink, an immediate second run re-checks out the stale
gitlink on a detached `HEAD` and reports `No tracking branch set`,
reverting the advance — the update is not idempotent.  And a clean
submodule at its gitlink whose head is not an ancestor of the tracking
tip (a merge that could not fast-forward) is never auto-resolved: the
unpushed-commits probe catches the divergence first, so it is skipped
as a conflict with no merge attempted. -/
theorem update_advances_behind_submodule_but_rerun_reverts
    (env : UpdateEnv) (s : SubRepo) (hg : s.head = env.gitlink)
    (hd : s.dirty = false) (hb : s.onBranch = true) (hu : s.hasUpstream = true)
    (hanc : env.anc s.head s.upstreamTip = true) (hne : s.head ≠ s.upstreamTip) :
    (updateOneSubmodule env s).outcome = UpdateOutcome.updated ∧
    (updateOneSubmodule env s).state = { s with head := s.upstreamTip } ∧
    (updateOneSubmodule env (updateOneSubmodule env s).state).outcome =
      UpdateOutcome.noTrackingBranch ∧
    (updateOneSubmodule env (updateOneSubmodule env s).state).state.head = env.gitlink ∧
    (updateOneSubmodule env (updateOneSubmodule env s).state).state.onBranch = false ∧
    (∀ t : SubRepo, t.head = env.gitlink → t.dirty = false → t.onBranch = true →
      t.hasUpstream = true → env.anc t.head t.upstreamTip = false →
      (updateOneSubmodule env t).outcome = UpdateOutcome.skippedConflict ∧
      (updateOneSubmodule env t).state = t ∧
      (updateOneSubmodule env t).mergeAttempted = false) := by
  have hinit : submoduleUpdateInit env s = s := by
    simp [submoduleUpdateInit, hg]
  have hflags : (hasChangesOf s || hasUnpushedOf env s) = false := by
    simp [hasChangesOf, hasUnpushedOf, hd, hb, hu, hanc]
  have hne2 : ¬ (s.upstreamTip = s.head) := fun e => hne e.symm
  have hrun1 : updateOneSubmodule env s =
      { state := { s with head := s.upstreamTip },
        outcome := UpdateOutcome.updated, mergeAttempted := true } := by
    simp [updateOneSubmodule, hinit, hflags, hb, hu, mergeFFOnly, hanc, hne2]
  have hstate1 : (updateOneSubmodule env s).state = { s with head := s.upstreamTip } := by
    rw [hrun1]
  have hglk : env.gitlink = s.head := hg.symm
  have hinit2 : submoduleUpdateInit env { s with head := s.upstreamTip } =
      { s with head := env.gitlink, onBranch := false } := by
    simp [submoduleUpdateInit, hglk, hd, hne2]
  have hrun2 : updateOneSubmodule env { s with head := s.upstreamTip } =
      { state := { s with head := env.gitlink, onBranch := false },
        outcome := UpdateOutcome.noTrackingBranch, mergeAttempted := false } := by
    simp only [updateOneSubmodule, hinit2]
    simp [hasChangesOf, hasUnpushedOf, hd]
  refine ⟨?_, hstate1, ?_, ?_, ?_, ?_⟩
  · rw [hrun1]
  · rw [hstate1, hrun2]
  · rw [hstate1, hrun2]
  · rw [hstate1, hrun2]
  · intro t k0 k1 k2 k3 k4
    have hinitT : submoduleUpdateInit env t = t := by
      simp [submoduleUpdateInit, k0]
    have hcondT : (hasChangesOf t || hasUnpushedOf env t) = true := by
      simp [hasChangesOf, hasUnpushedOf, k1, k2, k3, k4]
    refine ⟨?_, ?_, ?_⟩ <;> simp [updateOneSubmodule, hinitT, hcondT]

/-- Witness for the amended C5: the behind submodule is advanced and
reported updated, the immediate rerun reports the missing tracking
branch (not unchanged), and the diverged submodule is skipped as a
conflict. -/
theorem update_advances_behind_submodule_but_rerun_reverts_witness :
    (updateOneSubmodule updEnvBehind subBehind).outcome = UpdateOutcome.updated ∧
    (updateOneSubmodule updEnvBehind
      (updateOneSubmodule updEnvBehind subBehind).state).outcome =
      UpdateOutcome.noTrackingBranch ∧
    (updateOneSubmodule updEnvBehind subDivergedAtGitlink).outcome =
      UpdateOutcome.skippedConflict :=
  ⟨(update_advances_behind_submodule_but_rerun_reverts updEnvBehind subBehind
      rfl rfl rfl rfl rfl (by decide)).1,
   (update_advances_behind_submodule_but_rerun_reverts updEnvBehind subBehind
      rfl rfl rfl rfl rfl (by decide)).2.2.1,
   ((update_advances_behind_submodule_but_rerun_reverts updEnvBehind subBehind
      rfl rfl rfl rfl rfl (by decide)).2.2.2.2.2 subDivergedAtGitlink
      rfl rfl rfl rfl rfl).1⟩

/-- String concatenation is associative (used to normalize the error
messages assembled by the embedded functions). -/
theorem stringAppendAssoc (a b c : String) : a ++ b ++ c = a ++ (b ++ c) := by
  rcases a with ⟨la⟩
  rcases b with ⟨lb⟩
  rcases c with ⟨lc⟩
  show String.mk (la ++ lb ++ lc) = String.mk (la ++ (lb ++ lc))
  rw [List.append_assoc]

/-- C2.  Repository creation with a requested organization owner: a 422
`already exists` response from the organization attempt is fatal and
surfaced at once, with the organization attempt the only API call
issued; any other organization failure triggers exactly one fallback
attempt under the authenticated user's account; a name collision of
that fallback is again fatal; and the returned full name carries the
owner actually used — the organization on the organization path, the
authenticated username on the fallback path. -/
theorem createGitHubRepository_org_fallback_policy (env : GithubEnv) (name o : String) :
    (env.orgOutcome = ApiOutcome.alreadyExists422 →
      (createGitHubRepository env name (some o)).1 =
        Except.error ("Failed to create GitHub repository: " ++
          ("Repository name \x27" ++ name ++ "\x27 already exists in organization " ++ o ++
            ". Please choose a different name.")) ∧
      (createGitHubRepository env name (some o)).2 = [Attempt.inOrg o]) ∧
    (env.orgOutcome = ApiOutcome.success →
      (createGitHubRepository env name (some o)).1 = Except.ok (o ++ "/" ++ name) ∧
      (createGitHubRepository env name (some o)).2 = [Attempt.inOrg o]) ∧
    (∀ m, env.orgOutcome = ApiOutcome.otherError m →
      (createGitHubRepository env name (some o)).2 = [Attempt.inOrg o, Attempt.forUser] ∧
      (env.userOutcome = ApiOutcome.alreadyExists422 →
        (createGitHubRepository env name (some o)).1 =
          Except.error ("Failed to create GitHub repository: " ++
            ("Repository name \x27" ++ name ++
              "\x27 already exists in your account. Please choose a different name."))) ∧
      (env.userOutcome = ApiOutcome.success →
        (createGitHubRepository env name (some o)).1 =
          Except.ok (env.username ++ "/" ++ name))) := by
  refine ⟨?_, ?_, ?_⟩
  · intro h
    constructor <;> simp [createGitHubRepository, createRepoAttempts, h, stringAppendAssoc]
  · intro h
    constructor <;> simp [createGitHubRepository, createRepoAttempts, h, stringAppendAssoc]
  · intro m h
    refine ⟨?_, ?_, ?_⟩
    · cases hu : env.userOutcome <;>
        simp [createGitHubRepository, createRepoAttempts, h, hu, stringAppendAssoc]
    · intro hu
      simp [createGitHubRepository, createRepoAttempts, h, hu, stringAppendAssoc]
    · intro hu
      simp [createGitHubRepository, createRepoAttempts, h, hu, stringAppendAssoc]

/-- Witness for C2: with the fallback collaborator, exactly the two
attempts are issued and the returned identity is the personal one. -/
theorem createGitHubRepository_org_fallback_policy_witness :
    (createGitHubRepository fallbackEnv "app" (some "acme")).2 =
      [Attempt.inOrg "acme", Attempt.forUser] ∧
    (createGitHubRepository fallbackEnv "app" (some "acme")).1 = Except.ok "alice/app" :=
  ⟨((createGitHubRepository_org_fallback_policy fallbackEnv "app" "acme").2.2
      "Resource not accessible by integration" rfl).1,
   ((createGitHubRepository_org_fallback_policy fallbackEnv "app" "acme").2.2
      "Resource not accessible by integration" rfl).2.2 rfl⟩

/-- C9 counterexample.  The claim says every operation that runs
external commands with a different working directory restores the prior
process working directory unconditionally.  `updateSubmodules` itself
violates this: it chdirs the process to the git root
(`process.chdir(gitRoot)`, line 115) and never restores it, so after a
run started from another directory the process working directory is the
git root, not the caller's directory. -/
theorem updateSubmodules_leaves_cwd_mutated :
    updateSubmodulesFinalCwd ["home", "dev", "nettie-apps"] ["home", "user", "elsewhere"] 5 =
      ["home", "dev", "nettie-apps"] ∧
    updateSubmodulesFinalCwd ["home", "dev", "nettie-apps"] ["home", "user", "elsewhere"] 5 ≠
      ["home", "user", "elsewhere"] := by
  constructor
  · rfl
  · decide

/-- C9 amended.  `execFromGitRoot` restores the caller's working
directory unconditionally — its `finally` runs on the success path and
on the throw path alike — but `updateSubmodules` additionally performs
a bare `process.chdir(gitRoot)` that is never undone, so the update
operation returns with the process working directory moved to the git
root. -/
theorem execFromGitRoot_restores_cwd_updateSubmodules_does_not
    (gitRoot currentDir : List String)
    (runCmd : List String → Except String String) (m : String) (n : Nat) :
    (execFromGitRoot gitRoot runCmd currentDir).2 = currentDir ∧
    (execFromGitRoot gitRoot (fun _ => Except.error m) currentDir).2 = currentDir ∧
    updateSubmodulesFinalCwd gitRoot currentDir n = gitRoot := by
  refine ⟨rfl, rfl, ?_⟩
  show repeatExecCwd gitRoot n gitRoot = gitRoot
  induction n with
  | zero => rfl
  | succ k ih => exact ih

/-- C10.  `removeSubmodule` resolves the user-given argument by exact
match against the registered submodule list, or else by matching the
trailing path segment `/<arg>`; an argument matching neither fails with
the submodule-not-found error and performs none of the removal steps.
Consequently, after a successful removal whose target was the only
match for the argument, removing the same argument again fails the same
way. -/
theorem removeSubmodule_resolution_and_not_found (subs : List String) (arg : String)
    (c : Bool) :
    (arg ∈ subs → resolveSubmodulePath subs arg = some arg) ∧
    (arg ∉ subs → resolveSubmodulePath subs arg =
      subs.find? (fun p => strEndsWith p ("/" ++ arg))) ∧
    (resolveSubmodulePath subs arg = none →
      removeSubmodule subs arg c =
        { error := some ("Submodule \x27" ++ arg ++ "\x27 does not exist"),
          steps := [], submodulesAfter := subs }) ∧
    (∀ p, resolveSubmodulePath subs arg = some p → c = true →
      (removeSubmodule subs arg c).error = none ∧
      (removeSubmodule subs arg c).submodulesAfter = subs.erase p ∧
      (resolveSubmodulePath (subs.erase p) arg = none →
        (removeSubmodule (subs.erase p) arg c).steps = [] ∧
        (removeSubmodule (subs.erase p) arg c).error =
          some ("Submodule \x27" ++ arg ++ "\x27 does not exist"))) := by
  refine ⟨?_, ?_, ?_, ?_⟩
  · intro h
    simp [resolveSubmodulePath, h]
  · intro h
    simp [resolveSubmodulePath, h]
  · intro h
    simp [removeSubmodule, h]
  · intro p hp hc
    refine ⟨?_, ?_, ?_⟩
    · simp [removeSubmodule, hp, hc]
    · simp [removeSubmodule, hp, hc]
    · intro h2
      constructor <;> simp [removeSubmodule, h2]

/-- Witness for C10: the short name `alpha` resolves to `apps/alpha`
by the trailing-segment rule; after its removal the list no longer
matches `alpha`, so a second removal fails with the not-found error
and performs no steps. -/
theorem removeSubmodule_resolution_and_not_found_witness :
    (removeSubmodule subsListEx "alpha" true).error = none ∧
    (removeSubmodule subsListEx "alpha" true).submodulesAfter =
      ["utilities/frontend/beta"] ∧
    (removeSubmodule ["utilities/frontend/beta"] "alpha" true).steps = [] ∧
    (removeSubmodule ["utilities/frontend/beta"] "alpha" true).error =
      some ("Submodule \x27alpha\x27 does not exist") := by
  have h := (removeSubmodule_resolution_and_not_found subsListEx "alpha" true).2.2.2
    "apps/alpha" rfl rfl
  have h2 := h.2.2 rfl
  exact ⟨h.1, h.2.1, h2.1, h2.2⟩

/-- Push attempts carry no repository URL. -/
theorem urlsOf_tryPushBranches (pok : String → Bool) (bs : List String) :
    urlsOf (tryPushBranches pok bs).1 = [] := by
  induction bs with
  | nil => rfl
  | cons b rest ih =>
    cases hb : pok b with
    | true => simp [tryPushBranches, hb, urlsOf, urlOfEffect]
    | false =>
      have ih2 : List.filterMap urlOfEffect (tryPushBranches pok rest).1 = [] := ih
      simp [tryPushBranches, hb, urlsOf, urlOfEffect, ih2]

/-- The push phase mentions exactly one repository URL: the one it was
given (carried by the `addRemote` call). -/
theorem urlsOf_pushPhase (url : String) (oe : Bool) (pok : String → Bool) :
    urlsOf (pushPhase url oe pok).1 = [url] := by
  have hloop : List.filterMap urlOfEffect (tryPushBranches pok branchNames).1 = [] :=
    urlsOf_tryPushBranches pok branchNames
  rcases h2 : (tryPushBranches pok branchNames).2 with _ | b <;> cases oe <;>
    simp [pushPhase, urlsOf, urlOfEffect, List.filterMap_append, hloop, h2]

/-- Every repository URL occurring in the submodule phase is the one it
was given. -/
theorem urlsOf_submodulePhase (url relPath : String) (g a r : Bool) :
    ∀ v ∈ urlsOf (submodulePhase url relPath g a r), v = url := by
  cases g <;> cases a <;> cases r <;>
    simp [submodulePhase, urlsOf, urlOfEffect]

/-- Every repository URL occurring in the trace of `afterRepoCreation`
is built from the `actual` identity it was given, provided the prefix
trace it inherits mentions none. -/
theorem urlsOf_afterRepoCreation (cfg : ProjectConfig) (env : CreateAppEnv)
    (pre : List CAEffect) (actual : String)
    (hpre : urlsOf pre = []) :
    ∀ v ∈ urlsOf (afterRepoCreation cfg env pre actual).trace, v = mkGithubUrl actual := by
  intro v hv
  have hpre2 : List.filterMap urlOfEffect pre = [] := hpre
  cases hgr : cfg.createGithubRepo with
  | false =>
    simp [afterRepoCreation, hgr, urlsOf, List.filterMap_append, hpre2, urlOfEffect] at hv
  | true =>
    have hpush : List.filterMap urlOfEffect
        (pushPhase (mkGithubUrl actual) env.originExists env.pushOk).1 =
        [mkGithubUrl actual] :=
      urlsOf_pushPhase (mkGithubUrl actual) env.originExists env.pushOk
    have hsub := urlsOf_submodulePhase (mkGithubUrl actual) ("apps/" ++ cfg.name)
      env.workspaceIsGitRepo env.submoduleAddOk env.rawSubmoduleAddOk
    simp only [afterRepoCreation, hgr, if_true, urlsOf, List.filterMap_append,
      List.mem_append, hpre2, hpush, urlOfEffect] at hv
    rcases hv with ((h | h) | h) | h
    · simp [List.filterMap] at h
    · simp [List.filterMap, urlOfEffect] at h
    · simpa using h
    · exact hsub v h

/-- C1.  In every `createApp` run that actually provisioned a remote
repository (remote creation requested, token present, provisioner
returned identity `f` — including when organization creation fell back
to the personal account), the final `actualGithubRepo` is exactly `f`,
and every repository URL occurring anywhere in the run's effect trace —
the `origin` remote, both submodule-registration tiers, and the printed
manual remediation command — is `https://github.com/<f>.git`, never a
URL built from the originally requested `owner/name`. -/
theorem createApp_urls_always_from_actual_identity (cfg : ProjectConfig)
    (env : CreateAppEnv) (ws f : String)
    (h1 : cfg.createGithubRepo = true) (h2 : cfg.githubToken.isSome = true)
    (hf : (createGitHubRepository env.github (requestedRepoName cfg) (useOrg cfg env)).1 =
      Except.ok f) :
    (createApp cfg env ws).actualGithubRepo = f ∧
    ∀ v ∈ urlsOf (createApp cfg env ws).trace, v = mkGithubUrl f := by
  have hcond : (cfg.createGithubRepo && cfg.githubToken.isSome) = true := by
    simp [h1, h2]
  have hrun : createApp cfg env ws =
      afterRepoCreation cfg env
        [CAEffect.checkedDirAvailable,
         CAEffect.createRemote (requestedRepoName cfg) (useOrg cfg env)] f := by
    unfold createApp
    rw [hcond]
    cases hd : env.dirExistsAtStart <;>
      simp only [dirCheckInner, if_true, if_false, Bool.false_eq_true, ite_true, ite_false] <;>
      rw [hf] <;> rfl
  rw [hrun]
  constructor
  · cases hgr : cfg.createGithubRepo <;> simp [afterRepoCreation, hgr]
  · exact urlsOf_afterRepoCreation cfg env _ f rfl

/-- Witness for C1: with the fallback to `alice/app`, the actual
identity is recorded and every URL in the trace references
`alice/app`, not the requested `acme/app`. -/
theorem createApp_urls_always_from_actual_identity_witness :
    (createApp cfgFallback envFallback "root").actualGithubRepo = "alice/app" ∧
    ∀ v ∈ urlsOf (createApp cfgFallback envFallback "root").trace,
      v = "https://github.com/alice/app.git" :=
  createApp_urls_always_from_actual_identity cfgFallback envFallback "root" "alice/app"
    rfl rfl rfl

/-- When remote creation is not performed (no request or no token),
`createApp` proceeds with the requested identity. -/
theorem createApp_shape_no_remote (cfg : ProjectConfig) (env : CreateAppEnv) (ws : String)
    (hcond : (cfg.createGithubRepo && cfg.githubToken.isSome) = false) :
    createApp cfg env ws =
      afterRepoCreation cfg env [CAEffect.checkedDirAvailable] cfg.githubRepo := by
  unfold createApp
  rw [hcond]
  cases hd : env.dirExistsAtStart <;>
    simp only [dirCheckInner, Bool.false_eq_true, ite_true, ite_false]

/-- When remote creation runs and fails, `createApp` aborts with the
wrapped fatal error. -/
theorem createApp_shape_provisioner_error (cfg : ProjectConfig) (env : CreateAppEnv)
    (ws m : String)
    (hcond : (cfg.createGithubRepo && cfg.githubToken.isSome) = true)
    (hf : (createGitHubRepository env.github (requestedRepoName cfg) (useOrg cfg env)).1 =
      Except.error m) :
    (createApp cfg env ws).fatalError = some ("Failed to create app: " ++ m) := by
  unfold createApp
  rw [hcond]
  cases hd : env.dirExistsAtStart <;>
    simp only [dirCheckInner, Bool.false_eq_true, ite_true, ite_false] <;>
    rw [hf]

/-- When remote creation runs and returns identity `f`, `createApp`
continues with `f` as the actual identity. -/
theorem createApp_shape_provisioner_ok (cfg : ProjectConfig) (env : CreateAppEnv)
    (ws f : String)
    (hcond : (cfg.createGithubRepo && cfg.githubToken.isSome) = true)
    (hf : (createGitHubRepository env.github (requestedRepoName cfg) (useOrg cfg env)).1 =
      Except.ok f) :
    createApp cfg env ws =
      afterRepoCreation cfg env
        [CAEffect.checkedDirAvailable,
         CAEffect.createRemote (requestedRepoName cfg) (useOrg cfg env)] f := by
  unfold createApp
  rw [hcond]
  cases hd : env.dirExistsAtStart <;>
    simp only [dirCheckInner, Bool.false_eq_true, ite_true, ite_false] <;>
    rw [hf] <;> rfl

/-- When every candidate branch push fails, the run still completes:
the failure warning is in the trace, the local commit exists and the
`origin` remote is configured with the actual identity's URL. -/
theorem afterRepoCreation_all_push_fail (cfg : ProjectConfig) (env : CreateAppEnv)
    (pre : List CAEffect) (actual : String)
    (hgr : cfg.createGithubRepo = true) (hpf : ∀ b, env.pushOk b = false) :
    CAEffect.warnPushFailed ∈ (afterRepoCreation cfg env pre actual).trace ∧
    (afterRepoCreation cfg env pre actual).localRepo =
      { hasCommit := true, origin := some (mkGithubUrl actual) } ∧
    (afterRepoCreation cfg env pre actual).actualGithubRepo = actual ∧
    (afterRepoCreation cfg env pre actual).fatalError = none := by
  have hnone : tryPushBranches env.pushOk branchNames =
      ([CAEffect.pushAttempt "main" false, CAEffect.pushAttempt "master" false], none) := by
    simp [tryPushBranches, branchNames, hpf]
  refine ⟨?_, ?_, ?_, ?_⟩
  · simp [afterRepoCreation, hgr, pushPhase, hnone]
  · simp [afterRepoCreation, hgr]
  · simp [afterRepoCreation, hgr]
  · simp [afterRepoCreation, hgr]

/-- C6.  The initial push tries the fixed ordered candidate list
`main`, then the legacy default `master`, stopping at the first
success (a success on `main` never attempts `master`; a failure on
`main` followed by a success on `master` records success on `master`).
If every candidate fails the outcome is non-fatal: the run completes
with no fatal error, the failure warning (with its manual-push
remediation note) is emitted, and the local repository keeps its
commit and its correctly configured `origin` remote. -/
theorem initial_push_branch_fallback_nonfatal :
    (∀ pok : String → Bool,
      (pok "main" = true →
        tryPushBranches pok branchNames = ([CAEffect.pushAttempt "main" true], some "main")) ∧
      (pok "main" = false → pok "master" = true →
        tryPushBranches pok branchNames =
          ([CAEffect.pushAttempt "main" false, CAEffect.pushAttempt "master" true],
            some "master")) ∧
      (pok "main" = false → pok "master" = false →
        tryPushBranches pok branchNames =
          ([CAEffect.pushAttempt "main" false, CAEffect.pushAttempt "master" false], none))) ∧
    (∀ (cfg : ProjectConfig) (env : CreateAppEnv) (ws : String),
      cfg.createGithubRepo = true →
      (∀ b, env.pushOk b = false) →
      (createApp cfg env ws).fatalError = none →
      CAEffect.warnPushFailed ∈ (createApp cfg env ws).trace ∧
      (createApp cfg env ws).localRepo.hasCommit = true ∧
      (createApp cfg env ws).localRepo.origin =
        some (mkGithubUrl (createApp cfg env ws).actualGithubRepo)) := by
  constructor
  · intro pok
    refine ⟨?_, ?_, ?_⟩
    · intro h; simp [tryPushBranches, branchNames, h]
    · intro h1 h2; simp [tryPushBranches, branchNames, h1, h2]
    · intro h1 h2; simp [tryPushBranches, branchNames, h1, h2]
  · intro cfg env ws hgr hpf hfe
    cases ht : cfg.githubToken.isSome with
    | false =>
      have hcond : (cfg.createGithubRepo && cfg.githubToken.isSome) = false := by
        simp [ht]
      rw [createApp_shape_no_remote cfg env ws hcond]
      have h := afterRepoCreation_all_push_fail cfg env
        [CAEffect.checkedDirAvailable] cfg.githubRepo hgr hpf
      refine ⟨h.1, ?_, ?_⟩
      · rw [h.2.1]
      · rw [h.2.1, h.2.2.1]
    | true =>
      have hcond : (cfg.createGithubRepo && cfg.githubToken.isSome) = true := by
        simp [hgr, ht]
      rcases hres : (createGitHubRepository env.github (requestedRepoName cfg)
          (useOrg cfg env)).1 with m | f
      · rw [createApp_shape_provisioner_error cfg env ws m hcond hres] at hfe
        exact Option.noConfusion hfe
      · rw [createApp_shape_provisioner_ok cfg env ws f hcond hres]
        have h := afterRepoCreation_all_push_fail cfg env
          [CAEffect.checkedDirAvailable,
           CAEffect.createRemote (requestedRepoName cfg) (useOrg cfg env)] f hgr hpf
        refine ⟨h.1, ?_, ?_⟩
        · rw [h.2.1]
        · rw [h.2.1, h.2.2.1]

/-- Witness for C6: concrete first-success selection on `master`, and a
concrete run in which every push fails yet the warning is emitted and
the local repository keeps its commit and `origin` remote. -/
theorem initial_push_branch_fallback_nonfatal_witness :
    tryPushBranches (fun b => b == "master") branchNames =
      ([CAEffect.pushAttempt "main" false, CAEffect.pushAttempt "master" true],
        some "master") ∧
    CAEffect.warnPushFailed ∈ (createApp cfgFallback envAllPushFail "root").trace ∧
    (createApp cfgFallback envAllPushFail "root").localRepo.hasCommit = true ∧
    (createApp cfgFallback envAllPushFail "root").localRepo.origin =
      some (mkGithubUrl (createApp cfgFallback envAllPushFail "root").actualGithubRepo) :=
  ⟨((initial_push_branch_fallback_nonfatal.1 (fun b => b == "master")).2.1 rfl rfl),
   (initial_push_branch_fallback_nonfatal.2 cfgFallback envAllPushFail "root" rfl
      (fun _ => rfl) rfl).1,
   (initial_push_branch_fallback_nonfatal.2 cfgFallback envAllPushFail "root" rfl
      (fun _ => rfl) rfl).2.1,
   (initial_push_branch_fallback_nonfatal.2 cfgFallback envAllPushFail "root" rfl
      (fun _ => rfl) rfl).2.2⟩

/-- C8.  The claim requires a run whose target directory already exists
to fail with a fatal directory-exists error before any remote side
effect.  The code does construct that error (first conjunct: the
directory-existence check produces `Directory already exists`), but the
`throw` sits inside the very `try` whose `catch` was meant for the
failing `fs.access` probe, so the error is swallowed, `Target directory
is available` is logged, and the run continues: with the directory
already existing, the run still completes with no fatal error, still
calls the remote-repository creation API, and still creates the local
directory.  (The later submodule-registration path then removes the
directory before re-cloning — its own non-matching-directory `throw` is
equally swallowed by the `stat` probe's `catch`, and is unreachable
anyway because the compared paths are the identical
`path.join(workspaceRoot, 'apps', name)` string.) -/
theorem directoryExists_error_swallowed_remote_side_effects_happen :
    dirCheckInner ("root" ++ "/apps/" ++ cfgFallback.name) true =
      Except.error ("Directory already exists: " ++ ("root" ++ "/apps/" ++ cfgFallback.name)) ∧
    (createApp cfgFallback envDirExists "root").fatalError = none ∧
    CAEffect.createRemote "app" (some "acme") ∈
      (createApp cfgFallback envDirExists "root").trace ∧
    CAEffect.mkdirApp ∈ (createApp cfgFallback envDirExists "root").trace ∧
    CAEffect.removeDirBeforeSubmodule ∈ (createApp cfgFallback envDirExists "root").trace := by
  refine ⟨rfl, rfl, ?_, ?_, ?_⟩ <;> decide

